import Mathlib

/-!
Verification development for the JurisDraft repository.

Part A models the capstone evaluation harness described in
`src/Backend/evaluation/CAPSTONE_EVAL_REPORT.md`.  The Python sources
`evaluation/eval_utils.py` and `evaluation/run_evaluation.py` are not part of
the repository snapshot (only the report documenting them is), so those
components are modelled from the specification, as the doc comments below
record.

Part B models the deployed legal-chat API route,
`src/frontend/src/app/api/legal-chat/route.ts`, which is present in the
snapshot and is translated directly from the TypeScript source.
-/

namespace JurisDraft

/-- Splits a character list at whitespace, accumulating the current (reversed)
token in `cur`; empty fragments between consecutive separators are dropped. -/
def splitWhitespace (cs : List Char) (cur : List Char) : List (List Char) :=
  match cs with
  | [] => if cur = [] then [] else [cur.reverse]
  | c :: rest =>
      if c.isWhitespace then
        if cur = [] then splitWhitespace rest []
        else cur.reverse :: splitWhitespace rest []
      else splitWhitespace rest (c :: cur)

/-- Modelled from the spec: whitespace tokenization used by the Metrics
Engine's normalization step ("collapse whitespace"); splits on whitespace and
drops empty fragments.  The implementing file `eval_utils.py` is missing from
the snapshot. -/
def whitespaceTokens (s : String) : List String :=
  (splitWhitespace s.toList []).map (fun cs => String.mk cs)

/-- Modelled from the spec: the "strip punctuation" normalization step; keeps
alphanumeric and whitespace characters only. -/
def stripPunct (s : String) : String :=
  String.mk (s.toList.filter (fun c => c.isAlphanum || c.isWhitespace))

/-- Modelled from the spec: the "lowercase" normalization step. -/
def lowerString (s : String) : String :=
  String.mk (s.toList.map Char.toLower)

/-- Modelled from the spec: the "remove English articles (a, an, the)"
normalization step, applied tokenwise. -/
def removeArticles (ts : List String) : List String :=
  ts.filter (fun t => !(t == "a" || t == "an" || t == "the"))

/-- Modelled from the spec: full answer normalization of the Metrics Engine —
lowercase, strip punctuation, remove English articles, collapse whitespace —
producing a single-space-separated normalized string. -/
def normalizeAnswer (s : String) : String :=
  String.intercalate " " (removeArticles (whitespaceTokens (stripPunct (lowerString s))))

/-- Modelled from the spec: the normalized-and-tokenized view of an answer,
i.e. the whitespace tokens of the normalized string. -/
def getTokens (s : String) : List String :=
  whitespaceTokens (normalizeAnswer s)

/-- Modelled from the spec: Exact Match — 1 if the normalized prediction
string equals the normalized gold string, else 0. -/
def exactMatch (pred gold : String) : ℚ :=
  if normalizeAnswer pred = normalizeAnswer gold then 1 else 0

/-- Modelled from the spec: SQuAD-style token F1 over the
normalized-and-tokenized prediction vs. gold: matched tokens are the multiset
intersection; precision = matched / |pred|, recall = matched / |gold|,
F1 = harmonic mean; 1 if both token sequences are empty, 0 if exactly one is
empty, 0 if no token matches. -/
def tokenF1 (pred gold : String) : ℚ :=
  let p := getTokens pred
  let g := getTokens gold
  if p.isEmpty && g.isEmpty then 1
  else if p.isEmpty || g.isEmpty then 0
  else
    let m : ℕ := (p.bagInter g).length
    if m = 0 then 0
    else
      let prec : ℚ := (m : ℚ) / (p.length : ℚ)
      let rcl : ℚ := (m : ℚ) / (g.length : ℚ)
      2 * prec * rcl / (prec + rcl)

/-- A retrieved chunk as produced by the Retriever Adapter: source identifier,
similarity score, and chunk text.  The 1-based rank is the position in the
returned list. -/
structure RetrievedItem where
  source_id : String
  score : ℚ
  text : String
deriving DecidableEq

instance : Inhabited RetrievedItem := ⟨⟨"", 0, ""⟩⟩

/-- Decidable substring test on character lists: `a` occurs contiguously
inside `b`. -/
def listInfix (a b : List Char) : Bool :=
  (List.range (b.length + 1)).any (fun i => a.isPrefixOf (b.drop i))

/-- Substring test on strings, used for Oracle@k and relevance matching. -/
def strContains (hay needle : String) : Bool :=
  listInfix needle.toList hay.toList

/-- Modelled from the spec: Hit@k — 1 if any of the top-k retrieved items'
source_id is a member of the relevance set, else 0. -/
def hitAtK (relset : Finset String) (items : List RetrievedItem) (k : ℕ) : ℚ :=
  if (items.take k).any (fun it => decide (it.source_id ∈ relset)) then 1 else 0

/-- Modelled from the spec: MRR — reciprocal of the 1-based rank of the first
relevant item within the top-k; 0 if none found. -/
def mrrAtK (relset : Finset String) (items : List RetrievedItem) (k : ℕ) : ℚ :=
  match (items.take k).findIdx? (fun it => decide (it.source_id ∈ relset)) with
  | some i => 1 / ((i : ℚ) + 1)
  | none => 0

/-- Modelled from the spec: Oracle@k — 1 if the normalized gold-answer string
appears as a substring inside the normalized text of any of the top-k
retrieved items, else 0. -/
def oracleAtK (gold : String) (items : List RetrievedItem) (k : ℕ) : ℚ :=
  if (items.take k).any
      (fun it => strContains (normalizeAnswer it.text) (normalizeAnswer gold))
  then 1 else 0

/-- The DCG discount weight at 0-based position `i` (1-based rank `i + 1`):
`1 / log2(rank + 1) = 1 / log2(i + 2)`. -/
noncomputable def dcgWeight (i : ℕ) : ℝ :=
  1 / Real.logb 2 ((i : ℝ) + 2)

/-- Modelled from the spec: binary-relevance DCG over the top-k retrieved
items: `Σ rel_i / log2(rank_i + 1)`. -/
noncomputable def dcgAt (relset : Finset String) (items : List RetrievedItem) (k : ℕ) : ℝ :=
  ∑ i in Finset.range (items.take k).length,
    (if ((items.take k).getD i default).source_id ∈ relset then dcgWeight i else 0)

/-- Modelled from the spec: the ideal DCG for the number of relevant items
available, capped at k. -/
noncomputable def idcgAt (relset : Finset String) (k : ℕ) : ℝ :=
  ∑ i in Finset.range (min relset.card k), dcgWeight i

/-- Modelled from the spec: nDCG@k — the DCG normalized by the ideal DCG;
defined as 0 when the ideal DCG is 0, which in particular covers the empty
RelevanceSet (so the value is never undefined or NaN). -/
noncomputable def ndcgAt (relset : Finset String) (items : List RetrievedItem) (k : ℕ) : ℝ :=
  if idcgAt relset k = 0 then 0 else dcgAt relset items k / idcgAt relset k

/-- The claim's formulation of DCG, written rank-first: the sum over 1-based
ranks `r` of the top-k list of `rel_r / log2(r + 1)`. -/
noncomputable def dcgFormula (relset : Finset String) (items : List RetrievedItem) (k : ℕ) : ℝ :=
  ∑ i in Finset.range (min k items.length),
    (if (items.getD i default).source_id ∈ relset then (1 : ℝ) else 0) /
      Real.logb 2 (((i : ℝ) + 1) + 1)

/-- Normalization used by the Relevance Mapper's exact pass: case-insensitive
and whitespace-collapsed (no punctuation stripping, no article removal). -/
def normalizeSourceName (s : String) : String :=
  String.intercalate " " ((splitWhitespace (lowerString s).toList []).map (fun cs => String.mk cs))

/-- Modelled from the spec: the fuzzy token-set comparison of the Relevance
Mapper, on a 0–100 scale, insensitive to word order and duplicate tokens.
The implementing library call (rapidfuzz `token_set` comparison in
`eval_utils.py`) is missing from the snapshot; it is modelled as a Dice-style
set similarity over deduplicated tokens, which is order- and
duplicate-insensitive by construction. -/
def tokenSetSim (a b : String) : ℚ :=
  let ta := (whitespaceTokens (lowerString a)).toFinset
  let tb := (whitespaceTokens (lowerString b)).toFinset
  if ta.card + tb.card = 0 then 0
  else 100 * (2 * ((ta ∩ tb).card : ℚ)) / ((ta.card : ℚ) + (tb.card : ℚ))

/-- Modelled from the spec: the Relevance Mapper's exact pass — catalog
entries whose normalized identifier contains the normalized case_name as a
substring (case-insensitive, whitespace-collapsed). -/
def exactHits (case_name : String) (catalog : List String) : List String :=
  catalog.filter (fun src => strContains (normalizeSourceName src) (normalizeSourceName case_name))

/-- Modelled from the spec: the Relevance Mapper's fuzzy pass — catalog
entries whose token-set similarity with the case_name is at or above the
threshold (default 80 on the 0–100 scale). -/
def fuzzyHits (threshold : ℚ) (case_name : String) (catalog : List String) : List String :=
  catalog.filter (fun src => decide (threshold ≤ tokenSetSim case_name src))

/-- Modelled from the spec: `relevant_sources(case_name, catalog)` — first
attempt exact substring containment; only if there are no exact hits, fall
back to the fuzzy token-set pass; a case_name with no match under either
pass yields the empty set (not an error). -/
def relevant_sources (threshold : ℚ) (case_name : String) (catalog : List String) :
    Finset String :=
  let ex := exactHits case_name catalog
  if ex.isEmpty then (fuzzyHits threshold case_name catalog).toFinset
  else ex.toFinset

/-- Splits a character list into sentence fragments at '.', '!' and '?',
dropping empty fragments. -/
def splitSentences (cs : List Char) (cur : List Char) : List (List Char) :=
  match cs with
  | [] => if cur = [] then [] else [cur.reverse]
  | c :: rest =>
      if c = '.' || c = '!' || c = '?' then
        if cur = [] then splitSentences rest []
        else cur.reverse :: splitSentences rest []
      else splitSentences rest (c :: cur)

/-- Token-overlap score of a candidate sentence against the normalized query:
the number of distinct normalized query tokens present in the sentence. -/
def sentenceScore (query sentence : String) : ℕ :=
  ((getTokens sentence).toFinset ∩ (getTokens query).toFinset).card

/-- First-maximum selection: returns the sentence with the highest score,
keeping the earlier one on ties. -/
def pickBestSentence (query : String) (sentences : List String) : String :=
  match sentences with
  | [] => ""
  | s :: rest =>
      (rest.foldl
        (fun best cand =>
          if sentenceScore query best < sentenceScore query cand then cand else best)
        s)

/-- Modelled from the spec: the Answer Generator's Heuristic state — from the
top-ranked retrieved item's text, split into sentences, score each by token
overlap with the normalized query, return the highest-scoring sentence;
returns the empty string when there is no retrieved text. -/
def heuristicAnswer (query : String) (topText : Option String) : String :=
  match topText with
  | none => ""
  | some t =>
      pickBestSentence query ((splitSentences t.toList []).map (fun cs => String.mk cs))

/-- Modelled from the spec: the Answer Generator's two-state transition.  A
generation attempt is a tagged result: `some text` on success, `none` on any
failure (timeout, error response, malformed output).  When generation mode is
enabled the generation result is used if successful, otherwise the system
transitions to the Heuristic state for that single record; when generation
mode is disabled the Heuristic state is used directly. -/
def predictedAnswer (useLLM : Bool) (genResult : Option String)
    (query : String) (topText : Option String) : String :=
  if useLLM then
    match genResult with
    | some t => t
    | none => heuristicAnswer query topText
  else heuristicAnswer query topText

/-- Modelled from the spec: the Retriever Adapter's failure handling — the
underlying index call either returns a ranked list or throws; on a throw the
adapter returns the empty sequence for that query rather than aborting the
run. -/
def retrieveAdapter (underlying : Except String (List RetrievedItem)) :
    List RetrievedItem :=
  match underlying with
  | .ok items => items
  | .error _ => []

/-- One entry of the `conversationHistory` array of the legal-chat request
body (`src/frontend/src/app/api/legal-chat/route.ts`). -/
structure ChatMsg where
  role : String
  content : String
deriving DecidableEq

/-- The parsed legal-chat request body.  `message = none` models an absent or
non-string `message` field; JavaScript falsiness additionally rejects the
empty string, so the handler treats `some ""` as invalid too.
`conversationHistory = none` models an absent or non-array field. -/
structure ChatRequest where
  message : Option String
  conversationHistory : Option (List ChatMsg)

/-- The JSON response of the legal-chat handler together with its HTTP
status. -/
structure ApiResponse where
  status : ℕ
  message : Option String
  success : Option Bool
  error : Option String
  details : Option String
deriving DecidableEq

/-- The system prompt of `route.ts`, with the user question interpolated at
the end. -/
def systemPrompt (message : String) : String :=
  "You are a professional AI legal assistant for JurisDraft, specializing EXCLUSIVELY in the Indian legal framework and Indian law.\n\nCRITICAL RESTRICTIONS:\n1. You ONLY answer questions about Indian law, Indian legal system, and legal matters in India\n2. If asked about laws of other countries (USA, UK, etc.), politely respond: \"I specialize exclusively in Indian law. For information about [country]\x27s legal system, please consult a legal expert familiar with that jurisdiction.\"\n3. If asked non-legal questions (math, science, general knowledge, etc.), respond: \"I\x27m a legal assistant specializing in Indian law. I can only help with questions related to India\x27s legal framework, documents, and compliance.\"\n\nRESPONSE FORMAT REQUIREMENTS:\n- Keep responses SHORT and CONCISE (3-4 lines maximum)\n- Only provide detailed explanations if the user EXPLICITLY asks for \"more details\", \"elaborate\", \"explain in detail\", or similar requests\n- Even detailed responses must NOT exceed 8-10 lines\n- Use proper Markdown formatting:\n  * Use **bold** for important terms and headings\n  * Use bullet points (-) for lists\n  * Use proper line breaks for readability\n  * Use numbered lists (1., 2., 3.) when showing steps or sequential information\n\nYour role for INDIAN LAW ONLY:\n1. Help users understand Indian legal concepts, documents, and compliance requirements\n2. Provide guidance on drafting legal documents under Indian law\n3. Answer questions about Indian contracts, agreements, and legal procedures\n4. Offer insights on Indian legal best practices\n\nImportant guidelines:\n- Always be professional, accurate, and helpful\n- Clarify that you provide information for educational purposes and not legal advice\n- Recommend consulting with a qualified Indian attorney for specific legal matters\n- Be clear, concise, and use accessible language\n- If you\x27re unsure about something, acknowledge it rather than guessing\n- REMEMBER: Keep responses SHORT (3-4 lines) unless explicitly asked for more details\n\nCurrent user question: " ++ message

/-- Rendering of one history entry in the prompt:
`role === "user" ? "User" : "Assistant"` followed by `": "` and the
content. -/
def renderMsg (m : ChatMsg) : String :=
  (if m.role = "user" then "User" else "Assistant") ++ ": " ++ m.content

/-- JavaScript `slice(-5)`: the last five entries of the list (the whole list
when it has fewer than five). -/
def lastFive (l : List ChatMsg) : List ChatMsg :=
  l.drop (l.length - 5)

/-- The prompt built by the handler: when a non-empty history array is
present, the rendered last five entries are prepended to the system prompt;
otherwise the system prompt alone. -/
def buildPrompt (message : String) (history : Option (List ChatMsg)) : String :=
  match history with
  | some h =>
      if 0 < h.length then
        "Previous conversation:\n" ++ String.intercalate "\n" ((lastFive h).map renderMsg)
          ++ "\n\n" ++ systemPrompt message
      else systemPrompt message
  | none => systemPrompt message

/-- The POST handler of `route.ts`.  `gen` models the external
`model.generateContent` call on the built prompt: `.ok text` is a successful
generation, `.error msg` a thrown error with message `msg` (the catch block
inspects whether the message contains "API key"). -/
def legalChatPOST (apiKeyConfigured : Bool)
    (gen : String → Except String String) (req : ChatRequest) : ApiResponse :=
  match req.message with
  | none => ⟨400, none, none, some "Message is required and must be a string", none⟩
  | some m =>
      if m = "" then
        ⟨400, none, none, some "Message is required and must be a string", none⟩
      else if apiKeyConfigured = false then
        ⟨500, none, none, some "Gemini API key is not configured", none⟩
      else
        match gen (buildPrompt m req.conversationHistory) with
        | .ok t => ⟨200, some t, some true, none, none⟩
        | .error e =>
            if strContains e "API key" then
              ⟨500, none, none, some "Invalid API key configuration", none⟩
            else
              ⟨500, none, none, some "Failed to generate response. Please try again.", some e⟩

end JurisDraft

namespace JurisDraft

theorem list_bagInter_self {α : Type} [DecidableEq α] (l : List α) :
    l.bagInter l = l := by
  induction l with
  | nil => rfl
  | cons a as ih =>
      rw [List.cons_bagInter_of_pos _ (List.mem_cons_self a as),
        List.erase_cons_head, ih]

theorem tokenF1_of_eq_tokens (pred gold : String)
    (h : getTokens pred = getTokens gold) : tokenF1 pred gold = 1 := by
  unfold tokenF1
  rw [h]
  set g := getTokens gold with hg
  by_cases hge : g.isEmpty
  · simp [hge]
  · have hlen : g.length ≠ 0 := by
      intro h0
      exact hge (List.isEmpty_iff_length_eq_zero.mpr h0)
    have hm : (g.bagInter g).length = g.length := by rw [list_bagInter_self]
    simp only [hge, Bool.false_and, Bool.false_or, if_false, hm, hlen, if_neg hlen]
    have hq : (g.length : ℚ) ≠ 0 := by exact_mod_cast hlen
    field_simp
    ring

theorem lastFive_eq_nil_iff (l : List ChatMsg) : lastFive l = [] ↔ l = [] := by
  unfold lastFive
  constructor
  · intro h
    by_contra hne
    have hpos : 0 < l.length := List.length_pos.mpr hne
    have hlen := congrArg List.length h
    rw [List.length_drop] at hlen
    simp only [List.length_nil] at hlen
    omega
  · intro h
    subst h
    rfl

/-- C4: for every prediction/gold pair, Exact Match = 1 (equal normalized
strings) forces token F1 = 1; the converse fails: the pair
("foo bar", "bar foo") has F1 = 1 but EM = 0. -/
theorem em_one_implies_f1_one :
    (∀ pred gold : String, exactMatch pred gold = 1 → tokenF1 pred gold = 1) ∧
    (∃ pred gold : String, tokenF1 pred gold = 1 ∧ exactMatch pred gold = 0) := by
  constructor
  · intro pred gold hem
    have hnorm : normalizeAnswer pred = normalizeAnswer gold := by
      by_contra hne
      simp only [exactMatch, if_neg hne] at hem
      exact absurd hem (by norm_num)
    exact tokenF1_of_eq_tokens pred gold (by unfold getTokens; rw [hnorm])
  · refine ⟨"foo bar", "bar foo", ?_, ?_⟩
    · have h1 : getTokens "foo bar" = ["foo", "bar"] := by decide
      have h2 : getTokens "bar foo" = ["bar", "foo"] := by decide
      have h3 : ((["foo", "bar"] : List String).bagInter ["bar", "foo"]).length = 2 := by
        decide
      unfold tokenF1
      rw [h1, h2]
      simp only [h3]
      norm_num
    · have h : normalizeAnswer "foo bar" ≠ normalizeAnswer "bar foo" := by decide
      simp [exactMatch, h]

/-- Witness for C4: a concrete pair with EM = 1, where the theorem forces
F1 = 1. -/
theorem em_one_implies_f1_one_witness : tokenF1 "the cat" "cat" = 1 :=
  em_one_implies_f1_one.1 "the cat" "cat"
    (by
      have h : normalizeAnswer "the cat" = normalizeAnswer "cat" := by decide
      simp [exactMatch, h])

/-- C2: a generation-call failure (modelled as `genResult = none`, covering
timeout, error response and malformed output alike) yields exactly the same
predicted answer as running with generation mode disabled; the fallback is a
total function of the single record, so there is no retry and no run-level
abort. -/
theorem generation_failure_matches_disabled (q : String) (topText : Option String)
    (g : Option String) :
    predictedAnswer true none q topText = predictedAnswer false g q topText := rfl

/-- C5: Oracle@k is 1 exactly when the normalized gold answer occurs as a
substring of the normalized text of one of the top-k retrieved items, and the
end-to-end scenario — gold "Section 420", one retrieved passage
"the offense under Section 420 applies", k = 1 — yields Oracle@1 = 1.  The
metric does not read the predicted answer at all, so the value is independent
of EM. -/
theorem oracle_at_k_substring :
    (∀ (gold : String) (items : List RetrievedItem) (k : ℕ),
      oracleAtK gold items k = 1 ↔
        ∃ it ∈ items.take k,
          strContains (normalizeAnswer it.text) (normalizeAnswer gold) = true) ∧
    oracleAtK "Section 420"
      [⟨"judgment_1", 1, "the offense under Section 420 applies"⟩] 1 = 1 := by
  constructor
  · intro gold items k
    unfold oracleAtK
    by_cases h : (items.take k).any
        (fun it => strContains (normalizeAnswer it.text) (normalizeAnswer gold))
    · rw [if_pos h]
      rw [List.any_eq_true] at h
      exact ⟨fun _ => h, fun _ => rfl⟩
    · rw [if_neg h]
      constructor
      · intro h01
        exact absurd h01 (by norm_num)
      · intro hex
        rw [List.any_eq_true] at h
        exact absurd hex h
  · have h : strContains
        (normalizeAnswer "the offense under Section 420 applies")
        (normalizeAnswer "Section 420") = true := by decide
    simp [oracleAtK, h]

/-- C6: for a fixed relevance set and retrieved list (top-k lists are
prefixes of top-k' lists), Hit@k is monotonically non-decreasing in k. -/
theorem hit_at_k_monotone (relset : Finset String) (items : List RetrievedItem)
    (k k' : ℕ) (hk : k ≤ k') :
    hitAtK relset items k ≤ hitAtK relset items k' := by
  unfold hitAtK
  by_cases h : (items.take k).any (fun it => decide (it.source_id ∈ relset))
  · rw [if_pos h]
    have h' : (items.take k').any (fun it => decide (it.source_id ∈ relset)) := by
      rw [List.any_eq_true] at h ⊢
      obtain ⟨x, hx, hpx⟩ := h
      have heq : items.take k = (items.take k').take k := by
        rw [List.take_take, Nat.min_eq_left hk]
      rw [heq] at hx
      exact ⟨x, List.mem_of_mem_take hx, hpx⟩
    rw [if_pos h']
  · rw [if_neg h]
    split <;> norm_num

/-- Witness for C6 at a concrete relevance set, retrieved list and pair
k = 0 ≤ k' = 1. -/
theorem hit_at_k_monotone_witness :
    hitAtK {"s"} [⟨"s", 1, "t"⟩] 0 ≤ hitAtK {"s"} [⟨"s", 1, "t"⟩] 1 :=
  hit_at_k_monotone {"s"} [⟨"s", 1, "t"⟩] 0 1 (by norm_num)

/-- C8: when the underlying index throws, the Retriever Adapter returns the
empty sequence rather than aborting, and all ranking metrics of that record
are computed over zero retrieved items as 0 (Hit@k, MRR, nDCG@k, Oracle@k). -/
theorem retrieval_failure_zero_metrics (e : String) (relset : Finset String)
    (gold : String) (k : ℕ) :
    retrieveAdapter (.error e) = [] ∧
    hitAtK relset (retrieveAdapter (.error e)) k = 0 ∧
    mrrAtK relset (retrieveAdapter (.error e)) k = 0 ∧
    ndcgAt relset (retrieveAdapter (.error e)) k = 0 ∧
    oracleAtK gold (retrieveAdapter (.error e)) k = 0 := by
  refine ⟨rfl, ?_, ?_, ?_, ?_⟩
  · simp [hitAtK, retrieveAdapter]
  · simp [mrrAtK, retrieveAdapter]
  · have hd : dcgAt relset [] k = 0 := by simp [dcgAt]
    by_cases h : idcgAt relset k = 0 <;> simp [ndcgAt, retrieveAdapter, h, hd]
  · simp [oracleAtK, retrieveAdapter]

/-- C9: whenever the external generation call throws, the deployed legal-chat
POST handler returns an HTTP 500 JSON response carrying an error field and no
answer text — it never falls back to a heuristic answer. -/
theorem legal_chat_error_is_500_json (gen : String → Except String String)
    (req : ChatRequest) (m e : String)
    (hm : req.message = some m) (hne : m ≠ "")
    (herr : gen (buildPrompt m req.conversationHistory) = .error e) :
    (legalChatPOST true gen req).status = 500 ∧
    (legalChatPOST true gen req).error.isSome = true ∧
    (legalChatPOST true gen req).message = none := by
  unfold legalChatPOST
  rw [hm]
  dsimp only
  rw [herr]
  by_cases hc : strContains e "API key" = true <;> simp [hne, hc]

/-- Witness for C9: a concrete request whose generation call throws. -/
theorem legal_chat_error_is_500_json_witness :
    (legalChatPOST true (fun _ => .error "boom") ⟨some "hi", none⟩).status = 500 ∧
    (legalChatPOST true (fun _ => .error "boom") ⟨some "hi", none⟩).error.isSome = true ∧
    (legalChatPOST true (fun _ => .error "boom") ⟨some "hi", none⟩).message = none :=
  legal_chat_error_is_500_json (fun _ => .error "boom") ⟨some "hi", none⟩ "hi" "boom"
    rfl (by decide) rfl

/-- C10: two request bodies that agree on `message` and on the last five
entries of `conversationHistory` produce the identical prompt for the
generation model; older history entries do not influence it. -/
theorem prompt_depends_on_last_five (m : String) (h1 h2 : List ChatMsg)
    (hlast : lastFive h1 = lastFive h2) :
    buildPrompt m (some h1) = buildPrompt m (some h2) := by
  unfold buildPrompt
  dsimp only
  by_cases hp : 0 < h1.length
  · have h1ne : h1 ≠ [] := by
      intro h
      subst h
      simp at hp
    have h2ne : h2 ≠ [] := by
      intro h
      apply h1ne
      rw [← lastFive_eq_nil_iff]
      rw [hlast, h]
      rfl
    have hp2 : 0 < h2.length := List.length_pos.mpr h2ne
    rw [if_pos hp, if_pos hp2, hlast]
  · have h1nil : h1 = [] := List.eq_nil_of_length_eq_zero (by omega)
    have h2nil : h2 = [] := by
      rw [← lastFive_eq_nil_iff, ← hlast, h1nil]
      rfl
    subst h1nil h2nil
    rfl

/-- Witness for C10: a six-entry history and its own last five entries give
the identical prompt. -/
theorem prompt_depends_on_last_five_witness :
    buildPrompt "q" (some [⟨"user", "m0"⟩, ⟨"user", "m1"⟩, ⟨"assistant", "m2"⟩,
        ⟨"user", "m3"⟩, ⟨"assistant", "m4"⟩, ⟨"user", "m5"⟩]) =
    buildPrompt "q" (some [⟨"user", "m1"⟩, ⟨"assistant", "m2"⟩,
        ⟨"user", "m3"⟩, ⟨"assistant", "m4"⟩, ⟨"user", "m5"⟩]) :=
  prompt_depends_on_last_five "q" _ _ (by decide)

/-- C3: the Relevance Mapper first takes catalog entries whose normalized
identifier contains the normalized case_name (case-insensitive,
whitespace-collapsed); the fuzzy token-set pass at threshold 80 decides
membership only when the exact pass yields no hits; and when neither pass
matches, the result is the empty set rather than an error. -/
theorem relevant_sources_exact_then_fuzzy (case_name : String) (catalog : List String) :
    (exactHits case_name catalog ≠ [] →
      ∀ s : String, s ∈ relevant_sources 80 case_name catalog ↔
        s ∈ catalog ∧
          strContains (normalizeSourceName s) (normalizeSourceName case_name) = true) ∧
    (exactHits case_name catalog = [] →
      ∀ s : String, s ∈ relevant_sources 80 case_name catalog ↔
        s ∈ catalog ∧ (80 : ℚ) ≤ tokenSetSim case_name s) ∧
    (exactHits case_name catalog = [] → fuzzyHits 80 case_name catalog = [] →
      relevant_sources 80 case_name catalog = ∅) := by
  refine ⟨?_, ?_, ?_⟩
  · intro hne s
    have hb : (exactHits case_name catalog).isEmpty = false := by
      rw [List.isEmpty_eq_false]
      exact hne
    simp only [relevant_sources, hb, Bool.false_eq_true, if_false, List.mem_toFinset]
    unfold exactHits
    rw [List.mem_filter]
  · intro hnil s
    have hb : (exactHits case_name catalog).isEmpty = true := by
      rw [List.isEmpty_iff]
      exact hnil
    simp only [relevant_sources, hb, if_true, List.mem_toFinset]
    unfold fuzzyHits
    rw [List.mem_filter]
    simp [decide_eq_true_eq]
  · intro hnil hfuzz
    have hb : (exactHits case_name catalog).isEmpty = true := by
      rw [List.isEmpty_iff]
      exact hnil
    simp only [relevant_sources, hb, if_true, hfuzz]
    rfl

/-- Witness for C3: with a catalog entry that contains the case name, the
exact pass decides membership. -/
theorem relevant_sources_exact_then_fuzzy_witness :
    "xyz abc" ∈ relevant_sources 80 "abc" ["xyz abc"] :=
  ((relevant_sources_exact_then_fuzzy "abc" ["xyz abc"]).1 (by decide) "xyz abc").mpr
    ⟨by decide, by decide⟩

theorem dcgWeight_pos (i : ℕ) : 0 < dcgWeight i := by
  unfold dcgWeight
  apply one_div_pos.mpr
  apply Real.logb_pos (by norm_num)
  have h : (0 : ℝ) ≤ (i : ℝ) := Nat.cast_nonneg i
  linarith

theorem dcgWeight_antitone {i j : ℕ} (h : i ≤ j) : dcgWeight j ≤ dcgWeight i := by
  unfold dcgWeight
  apply one_div_le_one_div_of_le
  · apply Real.logb_pos (by norm_num)
    have h0 : (0 : ℝ) ≤ (i : ℝ) := Nat.cast_nonneg i
    linarith
  · apply Real.logb_le_logb_of_le (by norm_num)
    · have h0 : (0 : ℝ) ≤ (i : ℝ) := Nat.cast_nonneg i
      linarith
    · have hle : (i : ℝ) ≤ (j : ℝ) := Nat.cast_le.mpr h
      linarith

theorem sum_dcgWeight_le_range_card (S : Finset ℕ) :
    ∑ i in S, dcgWeight i ≤ ∑ i in Finset.range S.card, dcgWeight i := by
  induction S using Finset.strongInductionOn with
  | _ S ih =>
    rcases S.eq_empty_or_nonempty with rfl | hS
    · simp
    · obtain ⟨n, hn⟩ : ∃ n, S.card = n + 1 :=
        ⟨S.card - 1, by have := Finset.card_pos.mpr hS; omega⟩
      set a := S.max' hS with ha
      have hmem : a ∈ S := S.max'_mem hS
      have hsplit : dcgWeight a + ∑ i in S.erase a, dcgWeight i = ∑ i in S, dcgWeight i :=
        Finset.add_sum_erase S dcgWeight hmem
      have hcard : (S.erase a).card = n := by
        rw [Finset.card_erase_of_mem hmem, hn]
        omega
      have hIH := ih (S.erase a) (Finset.erase_ssubset hmem)
      rw [hcard] at hIH
      have hsubset : S ⊆ Finset.range (a + 1) := by
        intro x hx
        rw [Finset.mem_range]
        exact Nat.lt_succ_of_le (Finset.le_max' S x hx)
      have hcard_le : S.card ≤ a + 1 := by
        calc S.card ≤ (Finset.range (a + 1)).card := Finset.card_le_card hsubset
          _ = a + 1 := Finset.card_range _
      have hna : n ≤ a := by omega
      have hw : dcgWeight a ≤ dcgWeight n := dcgWeight_antitone hna
      rw [hn]
      calc ∑ i in S, dcgWeight i
          = dcgWeight a + ∑ i in S.erase a, dcgWeight i := hsplit.symm
        _ ≤ dcgWeight n + ∑ i in Finset.range n, dcgWeight i := add_le_add hw hIH
        _ = ∑ i in Finset.range (n + 1), dcgWeight i := by
            rw [Finset.sum_range_succ]
            ring

theorem dcg_nonneg (relset : Finset String) (items : List RetrievedItem) (k : ℕ) :
    0 ≤ dcgAt relset items k := by
  unfold dcgAt
  apply Finset.sum_nonneg
  intro i _
  split
  · exact (dcgWeight_pos i).le
  · exact le_refl 0

theorem idcg_nonneg (relset : Finset String) (k : ℕ) : 0 ≤ idcgAt relset k := by
  unfold idcgAt
  apply Finset.sum_nonneg
  intro i _
  exact (dcgWeight_pos i).le

theorem dcg_le_idcg (relset : Finset String) (items : List RetrievedItem) (k : ℕ)
    (hnd : (((items.take k).map RetrievedItem.source_id)).Nodup) :
    dcgAt relset items k ≤ idcgAt relset k := by
  unfold dcgAt idcgAt
  rw [← Finset.sum_filter]
  set l := items.take k with hl
  set hits := (Finset.range l.length).filter
    (fun i => ((l.getD i default).source_id ∈ relset)) with hhits
  have hmemlen : ∀ i ∈ hits, i < l.length := by
    intro i hi
    exact Finset.mem_range.mp (Finset.mem_filter.mp hi).1
  have hcard1 : hits.card ≤ relset.card := by
    apply Finset.card_le_card_of_injOn (fun i => (l.getD i default).source_id)
    · intro i hi
      exact (Finset.mem_filter.mp hi).2
    · intro i hi j hj hij
      have hi1 : i < l.length := hmemlen i hi
      have hj1 : j < l.length := hmemlen j hj
      simp only at hij
      rw [List.getD_eq_getElem _ _ hi1, List.getD_eq_getElem _ _ hj1] at hij
      have hi2 : i < (l.map RetrievedItem.source_id).length := by
        rw [List.length_map]
        exact hi1
      have hj2 : j < (l.map RetrievedItem.source_id).length := by
        rw [List.length_map]
        exact hj1
      have hmap : (l.map RetrievedItem.source_id)[i] = (l.map RetrievedItem.source_id)[j] := by
        rw [List.getElem_map _, List.getElem_map _]
        exact hij
      exact (List.Nodup.getElem_inj_iff hnd).mp hmap
  have hcard2 : hits.card ≤ k := by
    calc hits.card ≤ (Finset.range l.length).card := Finset.card_filter_le _ _
      _ = l.length := Finset.card_range _
      _ ≤ k := by
          rw [hl, List.length_take]
          exact min_le_left _ _
  have hcm : hits.card ≤ min relset.card k := le_min hcard1 hcard2
  calc ∑ i in hits, dcgWeight i
      ≤ ∑ i in Finset.range hits.card, dcgWeight i := sum_dcgWeight_le_range_card hits
    _ ≤ ∑ i in Finset.range (min relset.card k), dcgWeight i := by
        apply Finset.sum_le_sum_of_subset_of_nonneg (Finset.range_subset.mpr hcm)
        intro i _ _
        exact (dcgWeight_pos i).le

/-- C1: nDCG@k is the binary-relevance DCG `Σ rel_i / log2(rank_i + 1)` over
the top-k, normalized by the ideal DCG for the number of relevant items
available capped at k; when the RelevanceSet is empty the value is 0. -/
theorem ndcg_is_normalized_binary_dcg (relset : Finset String)
    (items : List RetrievedItem) (k : ℕ) :
    (relset = ∅ → ndcgAt relset items k = 0) ∧
    (idcgAt relset k ≠ 0 →
      ndcgAt relset items k = dcgFormula relset items k / idcgAt relset k) := by
  constructor
  · intro h
    subst h
    have h0 : idcgAt ∅ k = 0 := by
      unfold idcgAt
      simp
    rw [ndcgAt, if_pos h0]
  · intro h
    rw [ndcgAt, if_neg h]
    congr 1
    unfold dcgAt dcgFormula
    rw [List.length_take]
    apply Finset.sum_congr rfl
    intro i hi
    rw [Finset.mem_range] at hi
    have hi2 : i < items.length := lt_of_lt_of_le hi (min_le_right _ _)
    have hlt : i < (items.take k).length := by
      rw [List.length_take]
      exact hi
    rw [List.getD_eq_getElem _ _ hlt, List.getD_eq_getElem _ _ hi2]
    rw [show (items.take k)[i] = items[i] from List.getElem_take items]
    have harg : ((i : ℝ) + 1) + 1 = (i : ℝ) + 2 := by ring
    rw [harg]
    split
    · unfold dcgWeight
      rfl
    · rw [zero_div]

/-- Witness for C1 at a concrete nonempty relevance set with nonzero ideal
DCG. -/
theorem ndcg_is_normalized_binary_dcg_witness :
    ndcgAt {"s"} [⟨"s", 1, "t"⟩] 1 =
      dcgFormula {"s"} [⟨"s", 1, "t"⟩] 1 / idcgAt {"s"} 1 :=
  (ndcg_is_normalized_binary_dcg {"s"} [⟨"s", 1, "t"⟩] 1).2
    (by
      unfold idcgAt dcgWeight
      rw [show ({"s"} : Finset String).card = 1 from rfl]
      rw [show min 1 1 = 1 from rfl, Finset.sum_range_one]
      rw [show ((0 : ℕ) : ℝ) + 2 = 2 by norm_num]
      rw [Real.logb_self_eq_one (by norm_num)]
      norm_num)

/-- Counterexample for C7: nDCG@k as specified is NOT bounded by 1 for all
inputs.  When the same relevant source_id occupies several of the top-k
ranks (distinct chunks of one document share a source), the DCG accumulates
more relevant hits than the ideal DCG accounts for: with RelevanceSet {"s"}
and the two top-2 items both from source "s", nDCG@2 = 1 + 1/log2(3) > 1. -/
theorem ndcg_exceeds_one_on_duplicate_sources :
    1 < ndcgAt {"s"} [⟨"s", 1, ""⟩, ⟨"s", 1, ""⟩] 2 := by
  have hw0 : dcgWeight 0 = 1 := by
    unfold dcgWeight
    rw [show ((0 : ℕ) : ℝ) + 2 = 2 by norm_num]
    rw [Real.logb_self_eq_one (by norm_num)]
    norm_num
  have hidcg : idcgAt {"s"} 2 = 1 := by
    unfold idcgAt
    rw [show min ({"s"} : Finset String).card 2 = 1 from rfl, Finset.sum_range_one, hw0]
  have hdcg : dcgAt {"s"} [⟨"s", 1, ""⟩, ⟨"s", 1, ""⟩] 2 = dcgWeight 0 + dcgWeight 1 := by
    unfold dcgAt
    rw [show (([⟨"s", 1, ""⟩, ⟨"s", 1, ""⟩] : List RetrievedItem).take 2).length = 2 from rfl]
    rw [Finset.sum_range_succ, Finset.sum_range_one]
    rw [if_pos (by decide), if_pos (by decide)]
  unfold ndcgAt
  rw [hidcg, hdcg, hw0]
  norm_num
  exact dcgWeight_pos 1

/-- C7 (amended): nDCG@k is a total, never-NaN value; it is 0 whenever the
RelevanceSet is empty, nonnegative for every input, and bounded by 1 whenever
the retrieved items' source_ids are pairwise distinct (without distinctness
the bound can fail, see the counterexample). -/
theorem ndcg_defined_and_bounded (relset : Finset String)
    (items : List RetrievedItem) (k : ℕ) :
    0 ≤ ndcgAt relset items k ∧
    ((items.map RetrievedItem.source_id).Nodup → ndcgAt relset items k ≤ 1) ∧
    (relset = ∅ → ndcgAt relset items k = 0) := by
  refine ⟨?_, ?_, ?_⟩
  · unfold ndcgAt
    split
    · exact le_refl 0
    · rename_i h
      have hpos : 0 < idcgAt relset k := lt_of_le_of_ne (idcg_nonneg relset k) (Ne.symm h)
      exact div_nonneg (dcg_nonneg relset items k) hpos.le
  · intro hnd
    unfold ndcgAt
    split
    · norm_num
    · rename_i h
      have hpos : 0 < idcgAt relset k := lt_of_le_of_ne (idcg_nonneg relset k) (Ne.symm h)
      rw [div_le_one hpos]
      apply dcg_le_idcg
      have hsub : List.Sublist ((items.take k).map RetrievedItem.source_id)
          (items.map RetrievedItem.source_id) :=
        List.Sublist.map _ (List.take_sublist k items)
      exact List.Nodup.sublist hsub hnd
  · intro h
    subst h
    have h0 : idcgAt ∅ k = 0 := by
      unfold idcgAt
      simp
    rw [ndcgAt, if_pos h0]

/-- Witness for C7 (amended) at a concrete duplicate-free retrieved list. -/
theorem ndcg_defined_and_bounded_witness :
    0 ≤ ndcgAt {"s"} [⟨"s", 1, "t"⟩] 1 ∧ ndcgAt {"s"} [⟨"s", 1, "t"⟩] 1 ≤ 1 :=
  ⟨(ndcg_defined_and_bounded {"s"} [⟨"s", 1, "t"⟩] 1).1,
    (ndcg_defined_and_bounded {"s"} [⟨"s", 1, "t"⟩] 1).2.1 (by decide)⟩

end JurisDraft
